import Mathlib

/-!
Shallow embedding of the HRMS Lite server (src/server/index.js): an employee
roster and a per-day attendance log backed by a relational store, exposed
through REST handlers.  Pure validators are translated directly; each route
handler becomes a function from the store state and the parsed request to a
status code and the next state.  SQL queries become list operations: WHERE is
filter, COUNT is countP or length, ORDER BY is an insertion sort with the
corresponding comparison, and the store's BINARY text collation is
lexicographic comparison of character code points.  JSON body fields that may
be absent are Option String; the handlers' JavaScript truthiness tests treat
a missing field and the empty string alike.
-/

namespace HRMS

/-- Whitespace class of the JavaScript regular-expression escape used by the
email pattern (the characters matched by a backslash-s class). -/
def isJsWhitespace (c : Char) : Bool :=
  c == '\t' || c == '\n' || c == '\u000b' || c == '\u000c' || c == '\r' ||
  c == ' ' || c == '\u00a0' || c == '\u1680' ||
  (decide ('\u2000' ≤ c) && decide (c ≤ '\u200a')) ||
  c == '\u2028' || c == '\u2029' || c == '\u202f' || c == '\u205f' ||
  c == '\u3000' || c == '\ufeff'

/-- Character class appearing three times in the email pattern: any character
that is neither whitespace nor an at sign. -/
def emailCharOk (c : Char) : Bool :=
  !isJsWhitespace c && c != '@'

/-- Full-string match of the email pattern from src/server/index.js line 43:
one or more class characters, an at sign, one or more class characters, with
a dot somewhere strictly inside the part after the at sign (so that a
nonempty class run precedes it and a nonempty class run follows it).  Since
every class excludes the at sign, a matching string contains exactly one at
sign, so splitting at the first one is faithful. -/
def emailOk (l : List Char) : Bool :=
  let localPart := l.takeWhile (fun c => c != '@')
  match l.drop localPart.length with
  | '@' :: domainPart =>
      decide (0 < localPart.length) && localPart.all emailCharOk &&
      decide (0 < domainPart.length) && domainPart.all emailCharOk &&
      (domainPart.drop 1).dropLast.contains '.'
  | _ => false

/-- Translation of isValidEmail (src/server/index.js line 42): the input is
lowercased character by character (the ASCII range, as Char.toLower does)
and then tested against the email pattern. -/
def isValidEmail (email : String) : Bool :=
  emailOk (email.data.map Char.toLower)

/-- Translation of isValidDate (src/server/index.js line 45): exactly ten
characters, digits in positions one to four, six to seven and nine to ten,
and dashes in positions five and eight. -/
def isValidDate (dateStr : String) : Bool :=
  match dateStr.data with
  | [y1, y2, y3, y4, c1, m1, m2, c2, d1, d2] =>
      y1.isDigit && y2.isDigit && y3.isDigit && y4.isDigit &&
      c1 == '-' && m1.isDigit && m2.isDigit && c2 == '-' &&
      d1.isDigit && d2.isDigit
  | _ => false

/-- Row of the employees table (src/server/index.js lines 52 to 58). -/
structure Employee where
  employee_id : String
  full_name : String
  email : String
  department : String
  created_at : String
deriving DecidableEq, Repr

/-- Row of the attendance table (src/server/index.js lines 61 to 69). -/
structure AttendanceRecord where
  id : Nat
  employee_id : String
  date : String
  status : String
  created_at : String
deriving DecidableEq, Repr

/-- The persistent store: the two tables plus the next autoincrement value
for the attendance id column. -/
structure Store where
  employees : List Employee
  attendance : List AttendanceRecord
  nextAttendanceId : Nat
deriving DecidableEq, Repr

/-- Lexicographic comparison of character lists by code point, the order the
store's BINARY collation gives to text values. -/
def charListLe : List Char → List Char → Bool
  | [], _ => true
  | _ :: _, [] => false
  | a :: as, b :: bs =>
      if a.toNat < b.toNat then true
      else if b.toNat < a.toNat then false
      else charListLe as bs

/-- String comparison used for date bounds and for ORDER BY on text. -/
def strLe (s t : String) : Bool :=
  charListLe s.data t.data

/-- Insert an element into a list in front of the first element it compares
at or below; auxiliary step of the sort modelling ORDER BY. -/
def insertBy (le : α → α → Bool) (a : α) : List α → List α
  | [] => [a]
  | b :: bs => if le a b then a :: b :: bs else b :: insertBy le a bs

/-- Insertion sort with respect to a boolean comparison, the model of the
store's ORDER BY clause. -/
def sortBy (le : α → α → Bool) : List α → List α
  | [] => []
  | a :: as => insertBy le a (sortBy le as)

/-- Body of POST /api/employees; absent JSON fields are none. -/
structure EmployeeBody where
  employeeId : Option String
  fullName : Option String
  email : Option String
  department : Option String
deriving DecidableEq, Repr

/-- Body of POST /api/attendance; absent JSON fields are none. -/
structure AttendanceBody where
  employeeId : Option String
  date : Option String
  status : Option String
deriving DecidableEq, Repr

/-- JavaScript falsiness of an optional string field: absent or empty. -/
def strFalsy : Option String → Bool
  | none => true
  | some s => s == ""

/-- JavaScript truthiness of an optional query value: present and nonempty. -/
def truthy : Option String → Bool
  | none => false
  | some s => !(s == "")

/-- Comparison for ORDER BY created_at DESC in the employee listing. -/
def createdDesc (e1 e2 : Employee) : Bool :=
  strLe e2.created_at e1.created_at

/-- Comparison for ORDER BY date DESC in the attendance query. -/
def dateDesc (a b : AttendanceRecord) : Bool :=
  strLe b.date a.date

/-- Handler of GET /api/employees (src/server/index.js lines 81 to 90):
all employee rows ordered by creation time descending. -/
def listEmployees (s : Store) : List Employee :=
  sortBy createdDesc s.employees

/-- Handler of POST /api/employees (src/server/index.js lines 124 to 155):
reject when a field is missing or empty, then when the email is malformed,
then when the employee id is taken, then when the email is taken; otherwise
insert a row whose created_at the server sets to the current time. -/
def createEmployee (s : Store) (b : EmployeeBody) (now : String) : Nat × Store :=
  if strFalsy b.employeeId || strFalsy b.fullName ||
      strFalsy b.email || strFalsy b.department then (400, s) else
  if !isValidEmail (b.email.getD "") then (400, s) else
  if s.employees.any (fun e => e.employee_id == b.employeeId.getD "") then (409, s) else
  if s.employees.any (fun e => e.email == b.email.getD "") then (409, s) else
  (201, { s with employees := s.employees ++
      [⟨b.employeeId.getD "", b.fullName.getD "", b.email.getD "",
        b.department.getD "", now⟩] })

/-- Handler of DELETE /api/employees (src/server/index.js lines 157 to 170).
The SQL statement deletes only the employee row; the attendance rows of that
employee disappear through the schema's ON DELETE CASCADE rule
(src/server/index.js line 68), modelled here by the second filter. -/
def deleteEmployee (s : Store) (employeeId : String) : Nat × Store :=
  if s.employees.any (fun e => e.employee_id == employeeId) then
    (200, { s with
      employees := s.employees.filter (fun e => !(e.employee_id == employeeId)),
      attendance := s.attendance.filter (fun a => !(a.employee_id == employeeId)) })
  else (404, s)

/-- Handler of POST /api/attendance (src/server/index.js lines 172 to 210):
reject missing fields, a malformed date, a status outside Present and Absent,
an unknown employee, and a duplicate (employee, date) pair, in that order;
otherwise insert a row with the next autoincrement id and a server-set
created_at. -/
def recordAttendance (s : Store) (b : AttendanceBody) (now : String) : Nat × Store :=
  if strFalsy b.employeeId || strFalsy b.date || strFalsy b.status then (400, s) else
  if !isValidDate (b.date.getD "") then (400, s) else
  if !(b.status.getD "" == "Present" || b.status.getD "" == "Absent") then (400, s) else
  if !(s.employees.any (fun e => e.employee_id == b.employeeId.getD "")) then (404, s) else
  if s.attendance.any (fun a =>
      a.employee_id == b.employeeId.getD "" && a.date == b.date.getD "") then (409, s) else
  (201, { s with
      attendance := s.attendance ++
        [⟨s.nextAttendanceId, b.employeeId.getD "", b.date.getD "",
          b.status.getD "", now⟩],
      nextAttendanceId := s.nextAttendanceId + 1 })

/-- Date-range condition assembled by the attendance query handler: each
bound applies only when its query value is truthy, and both bounds are
inclusive. -/
def inDateRange (startDate endDate : Option String) (d : String) : Bool :=
  (if truthy startDate then strLe (startDate.getD "") d else true) &&
  (if truthy endDate then strLe d (endDate.getD "") else true)

/-- Handler of GET /api/employees/:employeeId/attendance (src/server/index.js
lines 212 to 251): unknown employee first, then format validation of each
truthy bound, then the filtered rows ordered by date descending. -/
def queryAttendance (s : Store) (employeeId : String)
    (startDate endDate : Option String) : Nat × List AttendanceRecord :=
  if !(s.employees.any (fun e => e.employee_id == employeeId)) then (404, []) else
  if truthy startDate && !isValidDate (startDate.getD "") then (400, []) else
  if truthy endDate && !isValidDate (endDate.getD "") then (400, []) else
  (200, sortBy dateDesc (s.attendance.filter (fun a =>
      a.employee_id == employeeId && inDateRange startDate endDate a.date)))

/-- Predicate of the COUNT filter for total present days and for the per
employee join condition. -/
def isPresentFor (eid : String) (a : AttendanceRecord) : Bool :=
  a.employee_id == eid && a.status == "Present"

/-- Present-day count of one employee, the COUNT over the left join rows of
GET /api/summary (src/server/index.js lines 100 to 109). -/
def presentDays (s : Store) (eid : String) : Nat :=
  s.attendance.countP (isPresentFor eid)

/-- Row of the presentByEmployee list in the summary response. -/
structure SummaryEntry where
  employee_id : String
  full_name : String
  present_days : Nat
deriving DecidableEq, Repr

/-- Comparison for ORDER BY present_days DESC, full_name ASC in the
summary query. -/
def entryLe (x y : SummaryEntry) : Bool :=
  decide (y.present_days < x.present_days) ||
    (decide (x.present_days = y.present_days) && strLe x.full_name y.full_name)

/-- Summary row of one employee. -/
def summaryRow (s : Store) (e : Employee) : SummaryEntry :=
  ⟨e.employee_id, e.full_name, presentDays s e.employee_id⟩

/-- The presentByEmployee list of GET /api/summary: one row per employee
(grouping is by the primary key, so the left join contributes each employee
once) ordered by present days descending then full name ascending. -/
def summaryPerEmployee (s : Store) : List SummaryEntry :=
  sortBy entryLe (s.employees.map (summaryRow s))

/-- The totals.employees field of GET /api/summary. -/
def totalsEmployees (s : Store) : Nat :=
  s.employees.length

/-- The totals.attendance field of GET /api/summary. -/
def totalsAttendance (s : Store) : Nat :=
  s.attendance.length

/-- The totals.present field of GET /api/summary: the count of attendance
rows whose status is Present. -/
def totalsPresent (s : Store) : Nat :=
  s.attendance.countP (fun a => a.status == "Present")

/-- Invariants of every store reachable through the API, mirroring the schema
constraints (primary key on employee_id, unique email, unique pair of
employee_id and date, foreign key into employees) and the handlers' input
validation (stored dates are well formed, stored statuses lie in the enum,
stored employee ids are nonempty). -/
def WF (s : Store) : Prop :=
  (s.employees.map Employee.employee_id).Nodup ∧
  (s.employees.map Employee.email).Nodup ∧
  (s.attendance.map (fun a => (a.employee_id, a.date))).Nodup ∧
  (∀ a ∈ s.attendance, ∃ e ∈ s.employees, e.employee_id = a.employee_id) ∧
  (∀ a ∈ s.attendance, isValidDate a.date = true) ∧
  (∀ a ∈ s.attendance, a.status = "Present" ∨ a.status = "Absent") ∧
  (∀ e ∈ s.employees, e.employee_id ≠ "")

instance decidableWF (s : Store) : Decidable (WF s) := by
  unfold WF
  infer_instance

/-- Input field that the handlers' required-field test rejects: absent or
empty. -/
def fieldMissing (o : Option String) : Prop :=
  o = none ∨ o = some ""

instance decidableFieldMissing (o : Option String) : Decidable (fieldMissing o) := by
  unfold fieldMissing
  infer_instance

/-- Condition under which POST /api/employees answers 400: some field is
missing or empty, or the email is malformed. -/
def employeeBodyRejected (b : EmployeeBody) : Prop :=
  fieldMissing b.employeeId ∨ fieldMissing b.fullName ∨ fieldMissing b.email ∨
  fieldMissing b.department ∨ isValidEmail (b.email.getD "") = false

instance decidableEmployeeBodyRejected (b : EmployeeBody) :
    Decidable (employeeBodyRejected b) := by
  unfold employeeBodyRejected
  infer_instance

/-- Sample employee used by concrete witnesses. -/
def empAnn : Employee :=
  ⟨"E1", "Ann", "ann@x.com", "Eng", "2024-01-01T08:00:00.000Z"⟩

/-- Second sample employee, with no attendance records. -/
def empBob : Employee :=
  ⟨"E2", "Bob", "bob@x.com", "Ops", "2024-01-02T08:00:00.000Z"⟩

/-- Sample attendance record of the first sample employee. -/
def recAnn : AttendanceRecord :=
  ⟨1, "E1", "2024-01-10", "Present", "2024-01-10T09:00:00.000Z"⟩

/-- Sample store with one employee and one attendance record. -/
def storeOne : Store :=
  ⟨[empAnn], [recAnn], 2⟩

/-- Sample store with two employees, the second without records. -/
def storeTwo : Store :=
  ⟨[empAnn, empBob], [recAnn], 2⟩

/-- Fresh store, as after initDb on a new database file. -/
def storeEmpty : Store :=
  ⟨[], [], 1⟩

theorem insertBy_perm (le : α → α → Bool) (a : α) (l : List α) :
    (insertBy le a l).Perm (a :: l) := by
  induction l with
  | nil => exact List.Perm.refl _
  | cons b bs ih =>
    simp only [insertBy]
    split
    · exact List.Perm.refl _
    · exact (ih.cons b).trans (List.Perm.swap a b bs)

theorem sortBy_perm (le : α → α → Bool) (l : List α) : (sortBy le l).Perm l := by
  induction l with
  | nil => exact List.Perm.refl _
  | cons a as ih => exact (insertBy_perm le a (sortBy le as)).trans (ih.cons a)

theorem pairwise_insertBy (le : α → α → Bool)
    (htr : ∀ x y z, le x y = true → le y z = true → le x z = true)
    (hto : ∀ x y, le x y = true ∨ le y x = true)
    (a : α) (l : List α) (hl : l.Pairwise (fun x y => le x y = true)) :
    (insertBy le a l).Pairwise (fun x y => le x y = true) := by
  induction l with
  | nil => simp [insertBy]
  | cons b bs ih =>
    rcases List.pairwise_cons.mp hl with ⟨hb, hbs⟩
    simp only [insertBy]
    split
    case isTrue h =>
      refine List.pairwise_cons.mpr ⟨?_, hl⟩
      intro x hx
      rcases List.mem_cons.mp hx with rfl | hx
      · exact h
      · exact htr a b x h (hb x hx)
    case isFalse h =>
      have hba : le b a = true := by
        rcases hto a b with hab | hba
        · exact absurd hab h
        · exact hba
      refine List.pairwise_cons.mpr ⟨?_, ih hbs⟩
      intro x hx
      have hx2 : x ∈ a :: bs := (insertBy_perm le a bs).mem_iff.mp hx
      rcases List.mem_cons.mp hx2 with rfl | hx2
      · exact hba
      · exact hb x hx2

theorem pairwise_sortBy (le : α → α → Bool)
    (htr : ∀ x y z, le x y = true → le y z = true → le x z = true)
    (hto : ∀ x y, le x y = true ∨ le y x = true)
    (l : List α) : (sortBy le l).Pairwise (fun x y => le x y = true) := by
  induction l with
  | nil => simp [sortBy]
  | cons a as ih => exact pairwise_insertBy le htr hto a (sortBy le as) ih

theorem charListLe_total : ∀ l m : List Char,
    charListLe l m = true ∨ charListLe m l = true
  | [], _ => Or.inl rfl
  | _ :: _, [] => Or.inr rfl
  | a :: as, b :: bs => by
    simp only [charListLe]
    rcases Nat.lt_trichotomy a.toNat b.toNat with h | h | h
    · left
      rw [if_pos h]
    · rw [if_neg (by omega), if_neg (by omega), if_neg (by omega), if_neg (by omega)]
      exact charListLe_total as bs
    · right
      rw [if_pos h]

theorem charListLe_trans : ∀ l m n : List Char,
    charListLe l m = true → charListLe m n = true → charListLe l n = true
  | [], _, _, _, _ => rfl
  | _ :: _, [], _, h1, _ => by simp [charListLe] at h1
  | _ :: _, _ :: _, [], _, h2 => by simp [charListLe] at h2
  | a :: as, b :: bs, c :: cs, h1, h2 => by
    simp only [charListLe] at h1 h2 ⊢
    rcases Nat.lt_trichotomy a.toNat b.toNat with hab | hab | hab
    · rcases Nat.lt_trichotomy b.toNat c.toNat with hbc | hbc | hbc
      · rw [if_pos (by omega)]
      · rw [if_pos (by omega)]
      · rw [if_neg (by omega), if_pos hbc] at h2
        exact absurd h2 (by simp)
    · rcases Nat.lt_trichotomy b.toNat c.toNat with hbc | hbc | hbc
      · rw [if_pos (by omega)]
      · rw [if_neg (by omega), if_neg (by omega)] at h1
        rw [if_neg (by omega), if_neg (by omega)] at h2
        rw [if_neg (by omega), if_neg (by omega)]
        exact charListLe_trans as bs cs h1 h2
      · rw [if_neg (by omega), if_pos hbc] at h2
        exact absurd h2 (by simp)
    · rw [if_neg (by omega), if_pos hab] at h1
      exact absurd h1 (by simp)

theorem strLe_total (s t : String) : strLe s t = true ∨ strLe t s = true :=
  charListLe_total s.data t.data

theorem strLe_trans (s t u : String) :
    strLe s t = true → strLe t u = true → strLe s u = true :=
  charListLe_trans s.data t.data u.data

theorem createdDesc_trans (x y z : Employee) :
    createdDesc x y = true → createdDesc y z = true → createdDesc x z = true :=
  fun h1 h2 => strLe_trans _ _ _ h2 h1

theorem createdDesc_total (x y : Employee) :
    createdDesc x y = true ∨ createdDesc y x = true :=
  (strLe_total y.created_at x.created_at).imp id id

theorem dateDesc_trans (x y z : AttendanceRecord) :
    dateDesc x y = true → dateDesc y z = true → dateDesc x z = true :=
  fun h1 h2 => strLe_trans _ _ _ h2 h1

theorem dateDesc_total (x y : AttendanceRecord) :
    dateDesc x y = true ∨ dateDesc y x = true :=
  (strLe_total y.date x.date).imp id id

theorem entryLe_trans (x y z : SummaryEntry) :
    entryLe x y = true → entryLe y z = true → entryLe x z = true := by
  intro h1 h2
  simp only [entryLe, Bool.or_eq_true, Bool.and_eq_true, decide_eq_true_eq] at h1 h2 ⊢
  rcases h1 with h1 | ⟨h1e, h1s⟩ <;> rcases h2 with h2 | ⟨h2e, h2s⟩
  · left; omega
  · left; omega
  · left; omega
  · right; exact ⟨by omega, strLe_trans _ _ _ h1s h2s⟩

theorem entryLe_total (x y : SummaryEntry) :
    entryLe x y = true ∨ entryLe y x = true := by
  simp only [entryLe, Bool.or_eq_true, Bool.and_eq_true, decide_eq_true_eq]
  rcases Nat.lt_trichotomy x.present_days y.present_days with h | h | h
  · right; left; exact h
  · rcases strLe_total x.full_name y.full_name with hs | hs
    · left; right; exact ⟨h, hs⟩
    · right; right; exact ⟨h.symm, hs⟩
  · left; left; exact h

theorem sum_indicator (p : α → Bool) (l : List α) :
    (l.map (fun x => if p x = true then 1 else 0)).sum = l.countP p := by
  induction l with
  | nil => simp
  | cons a t ih =>
    by_cases h : p a = true <;>
      simp [List.countP_cons, h, ih, Nat.add_comm]

theorem countP_field_eq_one (f : α → String) (l : List α) (x : α)
    (hnd : (l.map f).Nodup) (hx : x ∈ l) :
    l.countP (fun y => f y == f x) = 1 := by
  have hmem : f x ∈ l.map f := List.mem_map_of_mem f hx
  have h := List.count_eq_one_of_mem hnd hmem
  rw [List.count_eq_countP, List.countP_map] at h
  exact h

theorem sum_presentDays_eq (emps : List Employee) (atts : List AttendanceRecord)
    (hnd : (emps.map Employee.employee_id).Nodup)
    (hfk : ∀ a ∈ atts, a.status = "Present" →
        a.employee_id ∈ emps.map Employee.employee_id) :
    (emps.map (fun e => atts.countP (isPresentFor e.employee_id))).sum
      = atts.countP (fun a => a.status == "Present") := by
  induction atts with
  | nil => simp
  | cons a t ih =>
    have hfk2 : ∀ x ∈ t, x.status = "Present" →
        x.employee_id ∈ emps.map Employee.employee_id :=
      fun x hx => hfk x (List.mem_cons_of_mem a hx)
    simp only [List.countP_cons]
    rw [List.sum_map_add, ih hfk2]
    have hind : (emps.map (fun e =>
        if isPresentFor e.employee_id a = true then 1 else 0)).sum
        = (if (a.status == "Present") = true then 1 else 0) := by
      by_cases hp : a.status = "Present"
      · have hrw : ∀ e : Employee,
            isPresentFor e.employee_id a = (a.employee_id == e.employee_id) := by
          intro e
          simp [isPresentFor, hp]
        simp only [hrw]
        rw [sum_indicator (fun e => a.employee_id == e.employee_id) emps]
        have hone : emps.countP (fun e => e.employee_id == a.employee_id) = 1 := by
          have hmem := hfk a (List.mem_cons_self a t) hp
          have h := List.count_eq_one_of_mem hnd hmem
          rw [List.count_eq_countP, List.countP_map] at h
          exact h
        have hswap : emps.countP (fun e => a.employee_id == e.employee_id)
            = emps.countP (fun e => e.employee_id == a.employee_id) :=
          List.countP_congr (by intro x _; simp only [beq_iff_eq]; exact eq_comm)
        rw [hswap, hone]
        simp [hp]
      · have hrw : ∀ e : Employee, isPresentFor e.employee_id a = false := by
          intro e
          simp [isPresentFor, hp]
        simp [hrw, hp]
    rw [hind]

theorem any_field_eq_true (f : α → String) (l : List α) (v : String) :
    (l.any fun x => f x == v) = true ↔ ∃ x ∈ l, f x = v := by
  simp [List.any_eq_true]

theorem any_field_eq_false (f : α → String) (l : List α) (v : String)
    (h : ∀ x ∈ l, f x ≠ v) : (l.any fun x => f x == v) = false := by
  rw [List.any_eq_false]
  intro x hx
  simp [h x hx]

theorem strFalsy_eq_false (o : Option String) (v : String)
    (ho : o = some v) (hv : v ≠ "") : strFalsy o = false := by
  subst ho
  simp [strFalsy, hv]

theorem isValidDate_ne_empty (d : String) (h : isValidDate d = true) : d ≠ "" := by
  intro hd
  subst hd
  exact absurd h (by decide)

theorem createEmployee_success (s : Store) (eid nm em dept now : String)
    (h1 : eid ≠ "") (h2 : nm ≠ "") (h3 : em ≠ "") (h4 : dept ≠ "")
    (hv : isValidEmail em = true)
    (hid : ∀ e ∈ s.employees, e.employee_id ≠ eid)
    (hem : ∀ e ∈ s.employees, e.email ≠ em) :
    createEmployee s ⟨some eid, some nm, some em, some dept⟩ now =
      (201, { s with employees := s.employees ++ [⟨eid, nm, em, dept, now⟩] }) := by
  have hf1 : strFalsy (some eid) = false := strFalsy_eq_false _ _ rfl h1
  have hf2 : strFalsy (some nm) = false := strFalsy_eq_false _ _ rfl h2
  have hf3 : strFalsy (some em) = false := strFalsy_eq_false _ _ rfl h3
  have hf4 : strFalsy (some dept) = false := strFalsy_eq_false _ _ rfl h4
  have ha1 : (s.employees.any fun e => e.employee_id == eid) = false :=
    any_field_eq_false Employee.employee_id s.employees eid hid
  have ha2 : (s.employees.any fun e => e.email == em) = false :=
    any_field_eq_false Employee.email s.employees em hem
  simp [createEmployee, hf1, hf2, hf3, hf4, hv, ha1, ha2]

theorem queryAttendance_mem_attendance (s : Store) (eid : String)
    (sd ed : Option String) (r : AttendanceRecord)
    (hr : r ∈ (queryAttendance s eid sd ed).2) : r ∈ s.attendance := by
  unfold queryAttendance at hr
  split at hr
  · simp at hr
  · split at hr
    · simp at hr
    · split at hr
      · simp at hr
      · have hr2 : r ∈ s.attendance.filter (fun a =>
            a.employee_id == eid && inDateRange sd ed a.date) :=
          (sortBy_perm dateDesc _).mem_iff.mp hr
        exact (List.mem_filter.mp hr2).1

theorem queryAttendance_ok (s : Store) (eid : String) (sd ed : Option String)
    (hemp : ∃ e ∈ s.employees, e.employee_id = eid)
    (hsd : truthy sd = true → isValidDate (sd.getD "") = true)
    (hed : truthy ed = true → isValidDate (ed.getD "") = true) :
    queryAttendance s eid sd ed =
      (200, sortBy dateDesc (s.attendance.filter (fun a =>
        a.employee_id == eid && inDateRange sd ed a.date))) := by
  have h1 : (s.employees.any fun e => e.employee_id == eid) = true :=
    (any_field_eq_true Employee.employee_id s.employees eid).mpr hemp
  have h2 : (truthy sd && !isValidDate (sd.getD "")) = false := by
    cases hts : truthy sd
    · simp
    · simp [hsd hts]
  have h3 : (truthy ed && !isValidDate (ed.getD "")) = false := by
    cases hts : truthy ed
    · simp
    · simp [hed hts]
  simp [queryAttendance, h1, h2, h3]

theorem startBound_iff (o : Option String) (d : String) :
    ((if truthy o then strLe (o.getD "") d else true) = true) ↔
      ∀ v, o = some v → v ≠ "" → strLe v d = true := by
  cases o with
  | none => simp [truthy]
  | some v =>
    by_cases hv : v = ""
    · subst hv
      simp [truthy]
    · simp [truthy, hv]

theorem endBound_iff (o : Option String) (d : String) :
    ((if truthy o then strLe d (o.getD "") else true) = true) ↔
      ∀ v, o = some v → v ≠ "" → strLe d v = true := by
  cases o with
  | none => simp [truthy]
  | some v =>
    by_cases hv : v = ""
    · subst hv
      simp [truthy]
    · simp [truthy, hv]

/-- Claim C8: isValidDate accepts a string exactly when it is four digits, a
dash, two digits, a dash and two digits; in particular no calendar check is
made, so the impossible date 2024-02-30 is accepted. -/
theorem isValidDate_spec :
    (∀ s : String, isValidDate s = true ↔
      ∃ y1 y2 y3 y4 m1 m2 dd1 dd2 : Char,
        s.data = [y1, y2, y3, y4, '-', m1, m2, '-', dd1, dd2] ∧
        y1.isDigit = true ∧ y2.isDigit = true ∧ y3.isDigit = true ∧
        y4.isDigit = true ∧ m1.isDigit = true ∧ m2.isDigit = true ∧
        dd1.isDigit = true ∧ dd2.isDigit = true) ∧
    isValidDate "2024-02-30" = true := by
  constructor
  · intro s
    constructor
    · intro h
      unfold isValidDate at h
      split at h
      case h_1 y1 y2 y3 y4 c1 m1 m2 c2 dd1 dd2 heq =>
        simp only [Bool.and_eq_true, beq_iff_eq] at h
        obtain ⟨⟨⟨⟨⟨⟨⟨⟨⟨hy1, hy2⟩, hy3⟩, hy4⟩, hc1⟩, hm1⟩, hm2⟩, hc2⟩, hd1⟩, hd2⟩ := h
        subst hc1
        subst hc2
        exact ⟨y1, y2, y3, y4, m1, m2, dd1, dd2, heq,
          hy1, hy2, hy3, hy4, hm1, hm2, hd1, hd2⟩
      case h_2 => exact absurd h (by simp)
    · rintro ⟨y1, y2, y3, y4, m1, m2, dd1, dd2, hdata,
        hy1, hy2, hy3, hy4, hm1, hm2, hd1, hd2⟩
      unfold isValidDate
      rw [hdata]
      simp [hy1, hy2, hy3, hy4, hm1, hm2, hd1, hd2]
  · decide

/-- Claim C9: the attendance query answers 404 for an unknown employee no
matter what the date filters are, in particular also when one of them is
malformed, because the existence check runs before date validation. -/
theorem query_unknown_spec (s : Store) (eid : String) (sd ed : Option String)
    (h : ∀ e ∈ s.employees, e.employee_id ≠ eid) :
    queryAttendance s eid sd ed = (404, []) := by
  have hany : (s.employees.any fun e => e.employee_id == eid) = false :=
    any_field_eq_false Employee.employee_id s.employees eid h
  simp [queryAttendance, hany]

/-- Witness for claim C9: the sample store has no employee named ghost, and
querying it with a malformed start date still yields 404, not 400. -/
theorem query_unknown_witness :
    isValidDate "oops" = false ∧
    queryAttendance storeOne "ghost" (some "oops") none = (404, []) :=
  ⟨by decide, query_unknown_spec storeOne "ghost" (some "oops") none (by decide)⟩

/-- Claim C4: deleting an unknown employee answers 404 and changes nothing;
deleting a known one answers 200, removes exactly that employee row, removes
exactly that employee's attendance rows through the cascade rule, and leaves
nothing of that employee visible in the listing or in any later attendance
query. -/
theorem delete_employee_spec (s : Store) (eid : String) :
    ((∀ e ∈ s.employees, e.employee_id ≠ eid) → deleteEmployee s eid = (404, s)) ∧
    ((∃ e ∈ s.employees, e.employee_id = eid) →
      (deleteEmployee s eid).1 = 200 ∧
      (∀ e ∈ listEmployees (deleteEmployee s eid).2, e.employee_id ≠ eid) ∧
      (∀ e ∈ s.employees, e.employee_id ≠ eid → e ∈ (deleteEmployee s eid).2.employees) ∧
      (∀ a ∈ (deleteEmployee s eid).2.attendance, a.employee_id ≠ eid) ∧
      (∀ a ∈ s.attendance, a.employee_id ≠ eid → a ∈ (deleteEmployee s eid).2.attendance) ∧
      (∀ qeid sd ed r, r ∈ (queryAttendance (deleteEmployee s eid).2 qeid sd ed).2 →
          r.employee_id ≠ eid)) := by
  constructor
  · intro h
    have hany : (s.employees.any fun e => e.employee_id == eid) = false :=
      any_field_eq_false Employee.employee_id s.employees eid h
    simp [deleteEmployee, hany]
  · intro hex
    have hany : (s.employees.any fun e => e.employee_id == eid) = true :=
      (any_field_eq_true Employee.employee_id s.employees eid).mpr hex
    have hdel : deleteEmployee s eid = (200, { s with
        employees := s.employees.filter (fun e => !(e.employee_id == eid)),
        attendance := s.attendance.filter (fun a => !(a.employee_id == eid)) }) := by
      simp [deleteEmployee, hany]
    rw [hdel]
    refine ⟨rfl, ?_, ?_, ?_, ?_, ?_⟩
    · intro e he
      have he2 : e ∈ s.employees.filter (fun e => !(e.employee_id == eid)) :=
        (sortBy_perm createdDesc _).mem_iff.mp he
      have := (List.mem_filter.mp he2).2
      simpa using this
    · intro e he hne
      exact List.mem_filter.mpr ⟨he, by simpa using hne⟩
    · intro a ha
      have := (List.mem_filter.mp ha).2
      simpa using this
    · intro a ha hne
      exact List.mem_filter.mpr ⟨ha, by simpa using hne⟩
    · intro qeid sd ed r hr
      have hr2 := queryAttendance_mem_attendance _ qeid sd ed r hr
      have := (List.mem_filter.mp hr2).2
      simpa using this

/-- Witness for claim C4: the sample store has employee E1; deleting it
answers 200, and the store afterwards holds no employee and no attendance
row. -/
theorem delete_employee_witness :
    (∃ e ∈ storeOne.employees, e.employee_id = "E1") ∧
    (deleteEmployee storeOne "E1").1 = 200 :=
  ⟨by decide, ((delete_employee_spec storeOne "E1").2 (by decide)).1⟩

/-- Claim C7: creating an employee with a fresh id and email from a valid
payload succeeds, and the listing afterwards contains exactly one employee
matching the payload's id, name, email and department. -/
theorem create_then_list_spec (s : Store) (eid nm em dept now : String)
    (h1 : eid ≠ "") (h2 : nm ≠ "") (h3 : em ≠ "") (h4 : dept ≠ "")
    (hv : isValidEmail em = true)
    (hid : ∀ e ∈ s.employees, e.employee_id ≠ eid)
    (hem : ∀ e ∈ s.employees, e.email ≠ em) :
    (createEmployee s ⟨some eid, some nm, some em, some dept⟩ now).1 = 201 ∧
    (listEmployees (createEmployee s ⟨some eid, some nm, some em, some dept⟩ now).2).countP
      (fun e => e.employee_id == eid && e.full_name == nm &&
        e.email == em && e.department == dept) = 1 := by
  rw [createEmployee_success s eid nm em dept now h1 h2 h3 h4 hv hid hem]
  refine ⟨rfl, ?_⟩
  simp only [listEmployees]
  rw [(sortBy_perm createdDesc _).countP_eq]
  rw [List.countP_append]
  have hold : (s.employees.countP (fun e => e.employee_id == eid &&
      e.full_name == nm && e.email == em && e.department == dept)) = 0 := by
    rw [List.countP_eq_zero]
    intro e he hmatch
    simp only [Bool.and_eq_true, beq_iff_eq] at hmatch
    exact hid e he hmatch.1.1.1
  rw [hold]
  simp

/-- Witness for claim C7: creating employee E2 in the sample store succeeds
and the listing then shows exactly one matching record. -/
theorem create_then_list_witness :
    (createEmployee storeOne ⟨some "E2", some "Bob", some "bob@x.com", some "Ops"⟩ "t").1
      = 201 ∧
    (listEmployees (createEmployee storeOne
        ⟨some "E2", some "Bob", some "bob@x.com", some "Ops"⟩ "t").2).countP
      (fun e => e.employee_id == "E2" && e.full_name == "Bob" &&
        e.email == "bob@x.com" && e.department == "Ops") = 1 :=
  create_then_list_spec storeOne "E2" "Bob" "bob@x.com" "Ops" "t"
    (by decide) (by decide) (by decide) (by decide) (by decide) (by decide) (by decide)

/-- Claim C10: the email format check is insensitive to letter case (it only
looks at the lowercased characters), yet email uniqueness is exact string
equality, so two creations whose emails differ only in case both succeed. -/
theorem email_case_spec (s : Store) (eid1 eid2 nm1 nm2 em1 em2 dp1 dp2 t1 t2 : String)
    (hne1 : eid1 ≠ "") (hnn1 : nm1 ≠ "") (hnm1 : em1 ≠ "") (hnd1 : dp1 ≠ "")
    (hne2 : eid2 ≠ "") (hnn2 : nm2 ≠ "") (hnm2 : em2 ≠ "") (hnd2 : dp2 ≠ "")
    (hval1 : isValidEmail em1 = true)
    (hdiff : em1 ≠ em2)
    (hcase : em1.data.map Char.toLower = em2.data.map Char.toLower)
    (hid12 : eid1 ≠ eid2)
    (hid1 : ∀ e ∈ s.employees, e.employee_id ≠ eid1)
    (hid2 : ∀ e ∈ s.employees, e.employee_id ≠ eid2)
    (hem1 : ∀ e ∈ s.employees, e.email ≠ em1)
    (hem2 : ∀ e ∈ s.employees, e.email ≠ em2) :
    (∀ u v : String, u.data.map Char.toLower = v.data.map Char.toLower →
        isValidEmail u = isValidEmail v) ∧
    (createEmployee s ⟨some eid1, some nm1, some em1, some dp1⟩ t1).1 = 201 ∧
    (createEmployee (createEmployee s ⟨some eid1, some nm1, some em1, some dp1⟩ t1).2
        ⟨some eid2, some nm2, some em2, some dp2⟩ t2).1 = 201 := by
  have hci : ∀ u v : String, u.data.map Char.toLower = v.data.map Char.toLower →
      isValidEmail u = isValidEmail v := by
    intro u v h
    unfold isValidEmail
    rw [h]
  have hval2 : isValidEmail em2 = true := (hci em2 em1 hcase.symm).trans hval1
  have hcr1 := createEmployee_success s eid1 nm1 em1 dp1 t1
    hne1 hnn1 hnm1 hnd1 hval1 hid1 hem1
  refine ⟨hci, by rw [hcr1], ?_⟩
  rw [hcr1]
  have hid2b : ∀ e ∈ s.employees ++ [(⟨eid1, nm1, em1, dp1, t1⟩ : Employee)],
      e.employee_id ≠ eid2 := by
    intro e he
    rcases List.mem_append.mp he with he | he
    · exact hid2 e he
    · rcases List.mem_singleton.mp he with rfl
      simpa using hid12
  have hem2b : ∀ e ∈ s.employees ++ [(⟨eid1, nm1, em1, dp1, t1⟩ : Employee)],
      e.email ≠ em2 := by
    intro e he
    rcases List.mem_append.mp he with he | he
    · exact hem2 e he
    · rcases List.mem_singleton.mp he with rfl
      simpa using hdiff
  have hcr2 := createEmployee_success
    { s with employees := s.employees ++ [⟨eid1, nm1, em1, dp1, t1⟩] }
    eid2 nm2 em2 dp2 t2 hne2 hnn2 hnm2 hnd2 hval2 hid2b hem2b
  rw [hcr2]

/-- Witness for claim C10: on a fresh store, creating Ann with the mixed-case
email and then Bob with the same email lowercased both succeed. -/
theorem email_case_witness :
    (createEmployee storeEmpty ⟨some "E1", some "Ann", some "Ann@X.com", some "Eng"⟩ "t1").1
      = 201 ∧
    (createEmployee
        (createEmployee storeEmpty
          ⟨some "E1", some "Ann", some "Ann@X.com", some "Eng"⟩ "t1").2
        ⟨some "E2", some "Bob", some "ann@x.com", some "Ops"⟩ "t2").1 = 201 :=
  (email_case_spec storeEmpty "E1" "E2" "Ann" "Bob" "Ann@X.com" "ann@x.com"
    "Eng" "Ops" "t1" "t2" (by decide) (by decide) (by decide) (by decide)
    (by decide) (by decide) (by decide) (by decide) (by decide) (by decide)
    (by decide) (by decide) (by decide) (by decide) (by decide) (by decide)).2

/-- Claim C5: employee creation rejects with 400, writing nothing, when a
field is missing or empty or the email is malformed; otherwise it rejects
with 409, writing nothing, when the employee id or the email is already
taken; otherwise it inserts the employee with the server-set creation time
and answers 201. -/
theorem create_employee_spec (s : Store) (b : EmployeeBody) (now : String) :
    (employeeBodyRejected b → createEmployee s b now = (400, s)) ∧
    (¬employeeBodyRejected b →
      ((∃ e ∈ s.employees, e.employee_id = b.employeeId.getD "") ∨
       (∃ e ∈ s.employees, e.email = b.email.getD "")) →
      createEmployee s b now = (409, s)) ∧
    (¬employeeBodyRejected b →
      (∀ e ∈ s.employees, e.employee_id ≠ b.employeeId.getD "") →
      (∀ e ∈ s.employees, e.email ≠ b.email.getD "") →
      createEmployee s b now = (201, { s with employees := s.employees ++
        [⟨b.employeeId.getD "", b.fullName.getD "", b.email.getD "",
          b.department.getD "", now⟩] })) := by
  have hmiss : ∀ o : Option String, fieldMissing o → strFalsy o = true := by
    intro o ho
    rcases ho with rfl | rfl <;> simp [strFalsy]
  have hok : ∀ o : Option String, ¬fieldMissing o → strFalsy o = false := by
    intro o ho
    cases o with
    | none => exact absurd (Or.inl rfl) ho
    | some v =>
      have : v ≠ "" := fun hv => ho (Or.inr (by rw [hv]))
      simp [strFalsy, this]
  refine ⟨?_, ?_, ?_⟩
  · intro hrej
    rcases hrej with h | h | h | h | h
    · simp [createEmployee, hmiss _ h]
    · simp [createEmployee, hmiss _ h]
    · simp [createEmployee, hmiss _ h]
    · simp [createEmployee, hmiss _ h]
    · by_cases hf : strFalsy b.employeeId || strFalsy b.fullName ||
          strFalsy b.email || strFalsy b.department
      · simp [createEmployee, hf]
      · simp [createEmployee, hf, h]
  · intro hrej hdup
    have hf1 : strFalsy b.employeeId = false := hok _ (fun h => hrej (Or.inl h))
    have hf2 : strFalsy b.fullName = false := hok _ (fun h => hrej (Or.inr (Or.inl h)))
    have hf3 : strFalsy b.email = false :=
      hok _ (fun h => hrej (Or.inr (Or.inr (Or.inl h))))
    have hf4 : strFalsy b.department = false :=
      hok _ (fun h => hrej (Or.inr (Or.inr (Or.inr (Or.inl h)))))
    have hv : isValidEmail (b.email.getD "") = true := by
      rcases Bool.eq_false_or_eq_true (isValidEmail (b.email.getD "")) with h | h
      · exact h
      · exact absurd (show employeeBodyRejected b from
          Or.inr (Or.inr (Or.inr (Or.inr h)))) hrej
    by_cases hdid : (s.employees.any fun e => e.employee_id == b.employeeId.getD "") = true
    · simp [createEmployee, hf1, hf2, hf3, hf4, hv, hdid]
    · have hdem : (s.employees.any fun e => e.email == b.email.getD "") = true := by
        rcases hdup with h | h
        · exact absurd ((any_field_eq_true Employee.employee_id s.employees _).mpr h) hdid
        · exact (any_field_eq_true Employee.email s.employees _).mpr h
      have hdid2 : (s.employees.any fun e => e.employee_id == b.employeeId.getD "") = false :=
        Bool.eq_false_iff.mpr hdid
      simp [createEmployee, hf1, hf2, hf3, hf4, hv, hdid2, hdem]
  · intro hrej hfid hfem
    have hf1 : strFalsy b.employeeId = false := hok _ (fun h => hrej (Or.inl h))
    have hf2 : strFalsy b.fullName = false := hok _ (fun h => hrej (Or.inr (Or.inl h)))
    have hf3 : strFalsy b.email = false :=
      hok _ (fun h => hrej (Or.inr (Or.inr (Or.inl h))))
    have hf4 : strFalsy b.department = false :=
      hok _ (fun h => hrej (Or.inr (Or.inr (Or.inr (Or.inl h)))))
    have hv : isValidEmail (b.email.getD "") = true := by
      rcases Bool.eq_false_or_eq_true (isValidEmail (b.email.getD "")) with h | h
      · exact h
      · exact absurd (show employeeBodyRejected b from
          Or.inr (Or.inr (Or.inr (Or.inr h)))) hrej
    have ha1 := any_field_eq_false Employee.employee_id s.employees _ hfid
    have ha2 := any_field_eq_false Employee.email s.employees _ hfem
    simp [createEmployee, hf1, hf2, hf3, hf4, hv, ha1, ha2]

/-- Witness for claim C5: a valid fresh payload is inserted with status 201,
the conflicting duplicate id payload is refused with 409, and a payload with
an empty name is refused with 400. -/
theorem create_employee_witness :
    createEmployee storeOne ⟨some "E2", some "Bob", some "bob@x.com", some "Ops"⟩ "t"
      = (201, { storeOne with employees := storeOne.employees ++
          [⟨"E2", "Bob", "bob@x.com", "Ops", "t"⟩] }) ∧
    createEmployee storeOne ⟨some "E1", some "Zed", some "zed@x.com", some "Ops"⟩ "t"
      = (409, storeOne) ∧
    createEmployee storeOne ⟨some "E3", some "", some "zed@x.com", some "Ops"⟩ "t"
      = (400, storeOne) :=
  ⟨(create_employee_spec storeOne
      ⟨some "E2", some "Bob", some "bob@x.com", some "Ops"⟩ "t").2.2
      (by decide) (by decide) (by decide),
   (create_employee_spec storeOne
      ⟨some "E1", some "Zed", some "zed@x.com", some "Ops"⟩ "t").2.1
      (by decide) (Or.inl (by decide)),
   (create_employee_spec storeOne
      ⟨some "E3", some "", some "zed@x.com", some "Ops"⟩ "t").1 (by decide)⟩

/-- Claim C1 counterexample: the sample store already has a record for the
pair (E1, 2024-01-10), yet the request naming exactly that pair with the
status Late is answered 400, not the Conflict status 409 the claim
promises for every request naming an existing pair. -/
theorem record_duplicate_conflict_cex :
    (∃ a ∈ storeOne.attendance, a.employee_id = "E1" ∧ a.date = "2024-01-10") ∧
    recordAttendance storeOne ⟨some "E1", some "2024-01-10", some "Late"⟩ "t"
      = (400, storeOne) ∧
    (400 : Nat) ≠ 409 := by decide

/-- Claim C1 (amended): in a well-formed store, a request naming a pair for
which a record exists and carrying a valid status is answered 409 with the
store unchanged, so the existing record keeps its id, status and creation
time; moreover every call of the Record operation preserves the at most one
record per (employee, date) pair invariant. -/
theorem record_duplicate_conflict (s : Store) (eid d st now : String)
    (hwf : WF s)
    (hex : ∃ a ∈ s.attendance, a.employee_id = eid ∧ a.date = d)
    (hst : st = "Present" ∨ st = "Absent") :
    recordAttendance s ⟨some eid, some d, some st⟩ now = (409, s) ∧
    (∀ b tnow, ((recordAttendance s b tnow).2.attendance.map
        (fun a => (a.employee_id, a.date))).Nodup) := by
  obtain ⟨hids, hemails, hpairs, hfk, hdates, hstats, hidne⟩ := hwf
  constructor
  · obtain ⟨a, ha, haid, had⟩ := hex
    have hdate : isValidDate d = true := had ▸ hdates a ha
    have hdne : d ≠ "" := isValidDate_ne_empty d hdate
    obtain ⟨e, he, heid⟩ := hfk a ha
    have heide : e.employee_id = eid := heid.trans haid
    have heidne : eid ≠ "" := heide ▸ hidne e he
    have hstne : st ≠ "" := by rcases hst with rfl | rfl <;> decide
    have hf1 := strFalsy_eq_false (some eid) eid rfl heidne
    have hf2 := strFalsy_eq_false (some d) d rfl hdne
    have hf3 := strFalsy_eq_false (some st) st rfl hstne
    have hstok : (st == "Present" || st == "Absent") = true := by
      rcases hst with rfl | rfl <;> decide
    have hany1 : (s.employees.any fun e2 => e2.employee_id == eid) = true :=
      (any_field_eq_true Employee.employee_id s.employees eid).mpr ⟨e, he, heide⟩
    have hany2 : (s.attendance.any fun a2 =>
        a2.employee_id == eid && a2.date == d) = true := by
      rw [List.any_eq_true]
      exact ⟨a, ha, by simp [haid, had]⟩
    simp [recordAttendance, hf1, hf2, hf3, hdate, hstok, hany1, hany2]
  · intro b tnow
    unfold recordAttendance
    split
    · exact hpairs
    · split
      · exact hpairs
      · split
        · exact hpairs
        · split
          · exact hpairs
          · split
            · exact hpairs
            · rename_i hnone
              dsimp only
              rw [List.map_append, List.nodup_append]
              refine ⟨hpairs, by simp, ?_⟩
              intro p hp hp2
              simp only [List.map_cons, List.map_nil, List.mem_singleton] at hp2
              obtain ⟨a, ha, hpa⟩ := List.mem_map.mp hp
              apply hnone
              rw [List.any_eq_true]
              refine ⟨a, ha, ?_⟩
              have hcomp := hpa.trans hp2
              rw [Prod.mk.injEq] at hcomp
              simp [hcomp.1, hcomp.2]

/-- Witness for claim C1: the sample store has a record for (E1, 2024-01-10);
a second recording for that pair with status Absent is answered 409 and the
store is unchanged. -/
theorem record_duplicate_conflict_witness :
    WF storeOne ∧
    recordAttendance storeOne ⟨some "E1", some "2024-01-10", some "Absent"⟩ "t"
      = (409, storeOne) :=
  ⟨by decide,
   (record_duplicate_conflict storeOne "E1" "2024-01-10" "Absent" "t"
     (by decide) (by decide) (by decide)).1⟩

/-- Claim C2: in a well-formed store the summary's per-employee list has one
entry for each employee and nothing else, the entry carries the employee's
full name and its count of Present records, an employee without Present
records appears with a zero count, and the list is ordered by count
descending with ties broken by full name ascending. -/
theorem summary_per_employee_spec (s : Store) (hwf : WF s) :
    (summaryPerEmployee s).length = s.employees.length ∧
    (∀ e ∈ s.employees,
        (summaryPerEmployee s).countP (fun x => x.employee_id == e.employee_id) = 1 ∧
        ∃ x ∈ summaryPerEmployee s, x.employee_id = e.employee_id ∧
          x.full_name = e.full_name ∧
          x.present_days = s.attendance.countP (isPresentFor e.employee_id)) ∧
    (∀ e ∈ s.employees,
        (∀ a ∈ s.attendance, a.employee_id = e.employee_id → a.status ≠ "Present") →
        ∃ x ∈ summaryPerEmployee s, x.employee_id = e.employee_id ∧
          x.present_days = 0) ∧
    (summaryPerEmployee s).Pairwise (fun x y => entryLe x y = true) := by
  obtain ⟨hids, _, _, _, _, _, _⟩ := hwf
  refine ⟨?_, ?_, ?_, ?_⟩
  · exact (sortBy_perm entryLe _).length_eq.trans (List.length_map _ _)
  · intro e he
    constructor
    · simp only [summaryPerEmployee]
      rw [(sortBy_perm entryLe _).countP_eq, List.countP_map]
      have hcomp : ((fun x : SummaryEntry => x.employee_id == e.employee_id)
          ∘ summaryRow s) = fun y => y.employee_id == e.employee_id := by
        funext y
        simp [summaryRow]
      rw [hcomp]
      exact countP_field_eq_one Employee.employee_id s.employees e hids he
    · refine ⟨summaryRow s e, ?_, rfl, rfl, rfl⟩
      exact (sortBy_perm entryLe _).mem_iff.mpr (List.mem_map_of_mem _ he)
  · intro e he hnone
    refine ⟨summaryRow s e, ?_, rfl, ?_⟩
    · exact (sortBy_perm entryLe _).mem_iff.mpr (List.mem_map_of_mem _ he)
    · have : s.attendance.countP (isPresentFor e.employee_id) = 0 := by
        rw [List.countP_eq_zero]
        intro a ha hmatch
        simp only [isPresentFor, Bool.and_eq_true, beq_iff_eq] at hmatch
        exact hnone a ha hmatch.1 hmatch.2
      exact this
  · exact pairwise_sortBy entryLe entryLe_trans entryLe_total _

/-- Witness for claim C2: in the two-employee sample store, the employee
without Present records appears exactly once and with a zero count. -/
theorem summary_per_employee_witness :
    WF storeTwo ∧
    (summaryPerEmployee storeTwo).countP (fun x => x.employee_id == "E2") = 1 ∧
    summaryPerEmployee storeTwo = [⟨"E1", "Ann", 1⟩, ⟨"E2", "Bob", 0⟩] := by
  refine ⟨by decide, ?_, by decide⟩
  exact ((summary_per_employee_spec storeTwo (by decide)).2.1 empBob (by decide)).1

/-- Claim C3: in a well-formed store the summary's total count of Present
records equals the sum of the per-employee present-day counts. -/
theorem summary_totals_present_spec (s : Store) (hwf : WF s) :
    totalsPresent s = ((summaryPerEmployee s).map SummaryEntry.present_days).sum := by
  obtain ⟨hids, _, _, hfk, _, _, _⟩ := hwf
  simp only [summaryPerEmployee]
  rw [List.Perm.sum_eq (List.Perm.map SummaryEntry.present_days
    (sortBy_perm entryLe (s.employees.map (summaryRow s))))]
  rw [List.map_map]
  have hcomp : (SummaryEntry.present_days ∘ summaryRow s)
      = fun e => s.attendance.countP (isPresentFor e.employee_id) := rfl
  rw [hcomp]
  have hfk2 : ∀ a ∈ s.attendance, a.status = "Present" →
      a.employee_id ∈ s.employees.map Employee.employee_id := by
    intro a ha _
    obtain ⟨e, he, heq⟩ := hfk a ha
    exact List.mem_map.mpr ⟨e, he, heq⟩
  rw [sum_presentDays_eq s.employees s.attendance hids hfk2]
  rfl

/-- Witness for claim C3: in the two-employee sample store the Present total
is one, matching the summed per-employee counts. -/
theorem summary_totals_present_witness :
    WF storeTwo ∧
    totalsPresent storeTwo
      = ((summaryPerEmployee storeTwo).map SummaryEntry.present_days).sum :=
  ⟨by decide, summary_totals_present_spec storeTwo (by decide)⟩

/-- Claim C6 counterexample: an explicitly supplied but empty startDate fails
the format check, yet the query is answered 200 with the full history rather
than the 400 the claim promises for every supplied malformed filter, because
the handler's truthiness test skips empty values. -/
theorem query_attendance_cex :
    isValidDate "" = false ∧
    (∃ e ∈ storeOne.employees, e.employee_id = "E1") ∧
    queryAttendance storeOne "E1" (some "") none = (200, [recAnn]) ∧
    (200 : Nat) ≠ 400 := by decide

/-- Claim C6 (amended): for a known employee, a supplied nonempty malformed
bound yields 400; when each bound is absent, empty or well formed, the query
answers 200 with exactly the employee's records inside the inclusive bounds
(each applied only when supplied nonempty, so no filters give the full
history), without duplicates and ordered by date descending; an
empty-string bound behaves exactly like an absent one. -/
theorem query_attendance_spec (s : Store) (eid : String) (sd ed : Option String)
    (hwf : WF s)
    (hemp : ∃ e ∈ s.employees, e.employee_id = eid) :
    (∀ v, sd = some v → v ≠ "" → isValidDate v = false →
        queryAttendance s eid sd ed = (400, [])) ∧
    ((truthy sd = true → isValidDate (sd.getD "") = true) →
      ∀ v, ed = some v → v ≠ "" → isValidDate v = false →
        queryAttendance s eid sd ed = (400, [])) ∧
    ((truthy sd = true → isValidDate (sd.getD "") = true) →
     (truthy ed = true → isValidDate (ed.getD "") = true) →
      (queryAttendance s eid sd ed).1 = 200 ∧
      (∀ r, r ∈ (queryAttendance s eid sd ed).2 ↔
          r ∈ s.attendance ∧ r.employee_id = eid ∧
          (∀ v, sd = some v → v ≠ "" → strLe v r.date = true) ∧
          (∀ v, ed = some v → v ≠ "" → strLe r.date v = true)) ∧
      (queryAttendance s eid sd ed).2.Nodup ∧
      (queryAttendance s eid sd ed).2.Pairwise
        (fun a b => strLe b.date a.date = true)) ∧
    queryAttendance s eid (some "") ed = queryAttendance s eid none ed ∧
    queryAttendance s eid sd (some "") = queryAttendance s eid sd none := by
  obtain ⟨_, _, hpairs, _, _, _, _⟩ := hwf
  have hany : (s.employees.any fun e => e.employee_id == eid) = true :=
    (any_field_eq_true Employee.employee_id s.employees eid).mpr hemp
  refine ⟨?_, ?_, ?_, ?_, ?_⟩
  · intro v hsdv hvne hvbad
    subst hsdv
    simp [queryAttendance, hany, truthy, hvne, hvbad]
  · intro hsdok v hedv hvne hvbad
    subst hedv
    have h2 : (truthy sd && !isValidDate (sd.getD "")) = false := by
      cases hts : truthy sd
      · simp
      · simp [hsdok hts]
    simp [queryAttendance, hany, h2, truthy, hvne, hvbad]
  · intro hsdok hedok
    rw [queryAttendance_ok s eid sd ed hemp hsdok hedok]
    refine ⟨rfl, ?_, ?_, ?_⟩
    · intro r
      rw [(sortBy_perm dateDesc _).mem_iff, List.mem_filter]
      simp only [Bool.and_eq_true, beq_iff_eq, inDateRange]
      rw [startBound_iff, endBound_iff]
    · have hnod : s.attendance.Nodup := List.Nodup.of_map _ hpairs
      exact ((sortBy_perm dateDesc _).nodup_iff).mpr (hnod.filter _)
    · exact pairwise_sortBy dateDesc dateDesc_trans dateDesc_total _
  · have hfun : (fun a : AttendanceRecord =>
        a.employee_id == eid && inDateRange (some "") ed a.date)
        = (fun a => a.employee_id == eid && inDateRange none ed a.date) := by
      funext a
      simp [inDateRange, truthy]
    simp only [queryAttendance, hfun, truthy]
    simp
  · have hfun : (fun a : AttendanceRecord =>
        a.employee_id == eid && inDateRange sd (some "") a.date)
        = (fun a => a.employee_id == eid && inDateRange sd none a.date) := by
      funext a
      simp [inDateRange, truthy]
    simp only [queryAttendance, hfun, truthy]
    simp

/-- Witness for claim C6: querying the sample store for E1 with well-formed
bounds that enclose the record's date answers 200. -/
theorem query_attendance_witness :
    WF storeOne ∧
    (queryAttendance storeOne "E1" (some "2024-01-01") (some "2024-12-31")).1 = 200 :=
  ⟨by decide,
   (((query_attendance_spec storeOne "E1" (some "2024-01-01") (some "2024-12-31")
       (by decide) (by decide)).2.2.1) (by decide) (by decide)).1⟩

end HRMS
